import Mathlib

/-
Verification of the travel-plan synthesis pipeline of the travel-agent
service (src/travel_agent/main.ts).  The definitions below are a shallow
embedding of the /api/generate-plans handler: the mode table, the budget
calculator, the task composer, the stream consumer, the balanced-JSON
extractor, and the tiered fallback synthesizer, together with faithful
models of the ECMAScript builtins the handler relies on (JSON.parse, the
regular-expression field matchers, parseInt, split, replace, includes).
JavaScript strings are modelled as Lean strings, numbers occurring in the
pipeline as Nat (all arithmetic in the handler is small-integer exact),
and thrown exceptions as an explicit error type threaded through Except.
-/

namespace TravelAgent

/-! ### Decimal rendering of numbers (model of JS number-to-string) -/

/-- Decimal digits of a natural number, most significant first; the fuel
argument makes the recursion structural (fuel above the value suffices). -/
def natToDigitsAux : Nat → Nat → List Char
| 0, _ => []
| fuel + 1, n =>
  if n < 10 then [Char.ofNat (48 + n)]
  else natToDigitsAux fuel (n / 10) ++ [Char.ofNat (48 + n % 10)]

/-- Decimal rendering of a natural number, as a JS template literal renders it. -/
def natToString (n : Nat) : String := String.mk (natToDigitsAux (n + 1) n)

/-- Numeric value of a decimal digit character. -/
def digitVal (c : Char) : Nat := c.toNat - 48

/-- Value of a digit string read left to right (the accumulator form used by
JS parseInt on an all-digit prefix). -/
def digitsVal (cs : List Char) : Nat := cs.foldl (fun a c => a * 10 + digitVal c) 0

/-! ### Model of JS parseInt / split / replace as used by the budget calculator -/

/-- Model of JS String.prototype.replace with a single-character pattern and
empty replacement: removes the first occurrence only. -/
def removeFirst (t : Char) : List Char → List Char
| [] => []
| c :: rest => if c = t then rest else c :: removeFirst t rest

/-- Model of JS String.prototype.split on the single character hyphen:
splits at every occurrence, keeping empty groups. -/
def splitOnDash : List Char → List (List Char)
| [] => [[]]
| c :: rest =>
  if c = '-' then [] :: splitOnDash rest
  else
    match splitOnDash rest with
    | [] => [[c]]
    | g :: gs => (c :: g) :: gs

/-- Model of JS parseInt on the strings produced here: the value of the
leading digit run, or none (NaN) when there is no leading digit. -/
def jsParseIntL (cs : List Char) : Option Nat :=
  let ds := cs.takeWhile Char.isDigit
  if ds.isEmpty then none else some (digitsVal ds)

/-- Rendering of a JS number that may be NaN inside a template literal. -/
def showJsNum : Option Nat → String
| none => "NaN"
| some n => natToString n

/-! ### Mode table and budget calculator (main.ts lines 200-208 and twins) -/

/-- One row of the modeDetails table. -/
structure Mode where
  name : String
  emoji : String
  attractions : String
  pace : String
  daily : String
deriving DecidableEq

/-- The modeDetails lookup with its logical-or default,
modeDetails[budget] || modeDetails.moderate, on tier values that are not
names of inherited Object.prototype members.  A JS property read also
traverses the prototype chain, so for an inherited name such as toString
the fallback never triggers; that full property-read behaviour is modelled
by modeDetailsGet and modeOrDefault below, which agree with this function
off the prototype-key names (modeOrDefault_agrees).  The data model's valid
requests carry only the three enumeration values, on which all three
definitions coincide. -/
def modeFor (b : String) : Mode :=
  if b = "budget" then ⟨"Going with the Flow", "🌊", "2-3", "Relaxed", "$80-120"⟩
  else if b = "moderate" then ⟨"Moderate Explorer", "⚖️", "4-5", "Balanced", "$120-180"⟩
  else if b = "luxury" then ⟨"Intense Adventure", "🔥", "6-8", "Fast-paced", "$180-250"⟩
  else ⟨"Moderate Explorer", "⚖️", "4-5", "Balanced", "$120-180"⟩

/-- The flexibility ternary used alongside the table:
budget ? High : moderate ? Medium : Low. -/
def flexibilityFor (b : String) : String :=
  if b = "budget" then "High" else if b = "moderate" then "Medium" else "Low"

/-- The budgetToMode lookup with its logical-or default (main.ts line 96),
on tier values that are not inherited Object.prototype member names; the
full property-read model is budgetToModeLookup below, which agrees with
this function off the prototype-key names (budgetToModeLookup_agrees). -/
def budgetToMode (b : String) : String :=
  if b = "budget" then "Going with the Flow"
  else if b = "moderate" then "Moderate Explorer"
  else if b = "luxury" then "Intense Adventure"
  else "Moderate Explorer"

/-- The enumerable and non-enumerable member names a plain object literal
inherits from Object.prototype: a property read on the modeDetails or
budgetToMode literal with one of these keys yields the inherited member (a
function, or for the proto accessor an object), never undefined. -/
def objectProtoKeys : List String :=
  ["constructor", "hasOwnProperty", "isPrototypeOf", "propertyIsEnumerable",
   "toLocaleString", "toString", "valueOf",
   "__defineGetter__", "__defineSetter__", "__lookupGetter__",
   "__lookupSetter__", "__proto__"]

/-- Outcome of the ECMAScript property read modeDetails[b]: an own table
row, an inherited truthy Object.prototype member (on which the later
mode.daily access yields undefined, so mode.daily.replace throws), or
undefined. -/
inductive JsLookup where
| profile (m : Mode)
| inheritedFn
| undef
deriving DecidableEq

/-- The property read modeDetails[b] including the prototype chain. -/
def modeDetailsGet (b : String) : JsLookup :=
  if b = "budget" then JsLookup.profile ⟨"Going with the Flow", "🌊", "2-3", "Relaxed", "$80-120"⟩
  else if b = "moderate" then JsLookup.profile ⟨"Moderate Explorer", "⚖️", "4-5", "Balanced", "$120-180"⟩
  else if b = "luxury" then JsLookup.profile ⟨"Intense Adventure", "🔥", "6-8", "Fast-paced", "$180-250"⟩
  else if b ∈ objectProtoKeys then JsLookup.inheritedFn
  else JsLookup.undef

/-- modeDetails[b] || modeDetails.moderate with JS truthiness: only
undefined is falsy here, so an inherited member passes through and the
moderate fallback applies only to absent keys. -/
def modeOrDefault (b : String) : JsLookup :=
  match modeDetailsGet b with
  | JsLookup.undef =>
    JsLookup.profile ⟨"Moderate Explorer", "⚖️", "4-5", "Balanced", "$120-180"⟩
  | r => r

/-- Outcome of the property read on the budgetToMode literal: an own string
value or an inherited truthy member. -/
inductive StrLookup where
| strVal (s : String)
| inheritedFn
deriving DecidableEq

/-- budgetToMode[b] || the Moderate Explorer default (main.ts line 102),
including the prototype chain: inherited members are truthy, so the
default applies only to absent keys. -/
def budgetToModeLookup (b : String) : StrLookup :=
  if b = "budget" then StrLookup.strVal "Going with the Flow"
  else if b = "moderate" then StrLookup.strVal "Moderate Explorer"
  else if b = "luxury" then StrLookup.strVal "Intense Adventure"
  else if b ∈ objectProtoKeys then StrLookup.inheritedFn
  else StrLookup.strVal "Moderate Explorer"

/-- Second half of the budget calculator: formats lo*duration-hi*duration
from the split cost band, NaN-propagating exactly as JS does. -/
def budgetFromParts (parts : List (List Char)) (duration : Nat) : String :=
  "$" ++ showJsNum ((jsParseIntL (parts.getD 0 [])).map (fun n => n * duration)) ++
  "-" ++ showJsNum ((jsParseIntL (parts.getD 1 [])).map (fun n => n * duration))

/-- The budget calculator (main.ts lines 207-208):
mode.daily.replace dollar, split on hyphen, parseInt each side, multiply by
the duration, and re-render as a dollar range string. -/
def totalBudgetStr (daily : String) (duration : Nat) : String :=
  budgetFromParts (splitOnDash (removeFirst '$' daily.toList)) duration

/-! ### Lemmas: decimal rendering round-trips through the parse model -/

theorem digitsVal_append_digit (ds : List Char) (c : Char) :
    digitsVal (ds ++ [c]) = 10 * digitsVal ds + digitVal c := by
  simp [digitsVal, List.foldl_append, Nat.mul_comm]

theorem digitChar_isDigit (k : Nat) (hk : k < 10) :
    (Char.ofNat (48 + k)).isDigit = true := by
  interval_cases k <;> decide

theorem digitChar_val (k : Nat) (hk : k < 10) :
    digitVal (Char.ofNat (48 + k)) = k := by
  interval_cases k <;> decide

theorem natToDigitsAux_digits (fuel n : Nat) (h : n < fuel) :
    ∀ c ∈ natToDigitsAux fuel n, c.isDigit = true := by
  induction fuel generalizing n with
  | zero => omega
  | succ fuel ih =>
    intro c hc
    by_cases hn : n < 10
    · simp [natToDigitsAux, hn] at hc
      subst hc
      exact digitChar_isDigit n hn
    · have hdiv : n / 10 < fuel :=
        Nat.lt_of_lt_of_le (Nat.div_lt_self (by omega) (by omega)) (by omega)
      simp [natToDigitsAux, hn] at hc
      rcases hc with hc | hc
      · exact ih (n / 10) hdiv c hc
      · subst hc
        exact digitChar_isDigit (n % 10) (Nat.mod_lt _ (by omega))

theorem natToDigitsAux_ne_nil (fuel n : Nat) (h : n < fuel) :
    natToDigitsAux fuel n ≠ [] := by
  cases fuel with
  | zero => omega
  | succ fuel =>
    by_cases hn : n < 10 <;> simp [natToDigitsAux, hn]

theorem natToDigitsAux_val (fuel n : Nat) (h : n < fuel) :
    digitsVal (natToDigitsAux fuel n) = n := by
  induction fuel generalizing n with
  | zero => omega
  | succ fuel ih =>
    by_cases hn : n < 10
    · simp [natToDigitsAux, hn, digitsVal]
      simpa [digitVal] using digitChar_val n hn
    · have hdiv : n / 10 < fuel :=
        Nat.lt_of_lt_of_le (Nat.div_lt_self (by omega) (by omega)) (by omega)
      simp [natToDigitsAux, hn, digitsVal_append_digit, ih (n / 10) hdiv,
        digitChar_val (n % 10) (Nat.mod_lt _ (by omega))]
      omega

theorem takeWhile_all {p : Char → Bool} :
    ∀ l : List Char, (∀ c ∈ l, p c = true) → l.takeWhile p = l := by
  intro l
  induction l with
  | nil => intro _; rfl
  | cons c rest ih =>
    intro hall
    simp only [List.takeWhile, hall c (by simp), List.cons.injEq, true_and]
    exact ih fun d hd => hall d (by simp [hd])

theorem digit_ne_dash (c : Char) (h : c.isDigit = true) : c ≠ '-' := by
  intro he
  subst he
  simp [Char.isDigit] at h

theorem jsParseIntL_digits (ds : List Char) (hne : ds ≠ [])
    (hall : ∀ c ∈ ds, c.isDigit = true) :
    jsParseIntL ds = some (digitsVal ds) := by
  simp [jsParseIntL, takeWhile_all ds hall, hne]

theorem splitOnDash_no_dash :
    ∀ l : List Char, (∀ c ∈ l, c ≠ '-') → splitOnDash l = [l] := by
  intro l h
  induction l with
  | nil => rfl
  | cons c rest ih =>
    have hc : c ≠ '-' := h c (by simp)
    simp [splitOnDash, hc, ih fun d hd => h d (by simp [hd])]

theorem splitOnDash_append (a b : List Char) (ha : ∀ c ∈ a, c ≠ '-') :
    splitOnDash (a ++ '-' :: b) = a :: splitOnDash b := by
  induction a with
  | nil => simp [splitOnDash]
  | cons c rest ih =>
    have hc : c ≠ '-' := ha c (by simp)
    have hrest := ih fun d hd => ha d (by simp [hd])
    simp [splitOnDash, hc, hrest]

theorem string_data_append (a b : String) : (a ++ b).data = a.data ++ b.data := by
  cases a
  cases b
  rfl

/-! ### Balanced-JSON extractor (main.ts lines 158-174) -/

/-- Result of the extractor: no opening brace at all, an opening brace whose
depth counter never returns to zero, or the candidate substring. -/
inductive ExtractResult where
| noCandidate
| incomplete
| candidate (s : String)
deriving DecidableEq

/-- The brace-depth scan of main.ts lines 162-174: starting at the first
opening brace, increment the counter on an opening brace, decrement on a
closing one, and stop at the index where it first returns to zero; returns
the scanned segment inclusive of that closing brace. -/
def scanToClose : List Char → Int → Option (List Char)
| [], _ => none
| c :: rest, depth =>
  if c = '{' then (scanToClose rest (depth + 1)).map (fun t => c :: t)
  else if c = '}' then
    if depth - 1 = 0 then some [c]
    else (scanToClose rest (depth - 1)).map (fun t => c :: t)
  else (scanToClose rest depth).map (fun t => c :: t)

/-- Dispatch on the text from the first opening brace onward: empty means
indexOf returned -1 (no candidate); otherwise run the depth scan. -/
def extractTail : List Char → ExtractResult
| [] => ExtractResult.noCandidate
| c :: tail =>
  match scanToClose (c :: tail) 0 with
  | some obj => ExtractResult.candidate (String.mk obj)
  | none => ExtractResult.incomplete

/-- The extractor on character lists: indexOf the first opening brace, then
the depth scan; -1 becomes noCandidate, a failed scan becomes incomplete. -/
def extractL (cs : List Char) : ExtractResult :=
  extractTail (cs.dropWhile (fun c => c ≠ '{'))

/-- The extractor on the accumulated response text. -/
def extractBalanced (s : String) : ExtractResult := extractL s.toList

/-! ### Specification-side characterisation of balanced objects -/

/-- Signed brace balance of a character list. -/
def braceDelta : List Char → Int
| [] => 0
| c :: rest => (if c = '{' then 1 else if c = '}' then -1 else 0) + braceDelta rest

/-- One step of the running brace balance. -/
def bumpDepth (c : Char) (d : Int) : Int :=
  if c = '{' then d + 1 else if c = '}' then d - 1 else d

/-- Depth check behind isBalancedObj: the running balance stays at least one
on every proper prefix and returns to exactly zero at the end. -/
def dyckAux : List Char → Int → Bool
| [], d => d == 0
| [c], d => bumpDepth c d == 0
| c :: r :: rs, d => decide (1 ≤ bumpDepth c d) && dyckAux (r :: rs) (bumpDepth c d)

/-- A well-formed balanced-brace object in the sense of the specification:
it starts with an opening brace, its braces balance to zero, and no proper
prefix already balances (the matching closing brace is the last character). -/
def isBalancedObj (cs : List Char) : Bool :=
  match cs with
  | c :: _ => if c = '{' then dyckAux cs 0 else false
  | [] => false

/-- Positivity of the running balance on every proper nonempty prefix. -/
def PosPrefix (d : Int) (cs : List Char) : Prop :=
  ∀ p q, cs = p ++ q → p ≠ [] → q ≠ [] → 1 ≤ d + braceDelta p

theorem braceDelta_cons (c : Char) (rest : List Char) :
    braceDelta (c :: rest) =
      (if c = '{' then 1 else if c = '}' then -1 else 0) + braceDelta rest := rfl

theorem bumpDepth_eq (c : Char) (d : Int) :
    bumpDepth c d = d + (if c = '{' then 1 else if c = '}' then -1 else 0) := by
  by_cases h1 : c = '{'
  · simp [bumpDepth, h1]
  · by_cases h2 : c = '}'
    · simp [bumpDepth, h1, h2]
      omega
    · simp [bumpDepth, h1, h2]

theorem braceDelta_cons_bump (c : Char) (rest : List Char) (d : Int) :
    d + braceDelta (c :: rest) = bumpDepth c d + braceDelta rest := by
  rw [braceDelta_cons, bumpDepth_eq]
  omega

theorem dyckAux_one (c : Char) (d : Int) :
    dyckAux [c] d = (bumpDepth c d == 0) := rfl

theorem dyckAux_two (c r : Char) (rs : List Char) (d : Int) :
    dyckAux (c :: r :: rs) d =
      (decide (1 ≤ bumpDepth c d) && dyckAux (r :: rs) (bumpDepth c d)) := rfl

theorem scanToClose_cons (c : Char) (rest : List Char) (d : Int) :
    scanToClose (c :: rest) d =
      (if c = '{' then (scanToClose rest (d + 1)).map (fun t => c :: t)
       else if c = '}' then
         if d - 1 = 0 then some [c]
         else (scanToClose rest (d - 1)).map (fun t => c :: t)
       else (scanToClose rest d).map (fun t => c :: t)) := rfl

theorem dyck_iff :
    ∀ (cs : List Char) (d : Int),
      dyckAux cs d = true ↔ (d + braceDelta cs = 0 ∧ PosPrefix d cs) := by
  intro cs
  induction cs with
  | nil =>
    intro d
    constructor
    · intro h
      refine ⟨by simpa [dyckAux, braceDelta] using h, ?_⟩
      intro p q hpq hp _
      exact absurd (List.append_eq_nil.mp hpq.symm).1 hp
    · intro h
      simp [dyckAux, braceDelta] at h ⊢
      omega
  | cons c rest ih =>
    intro d
    cases rest with
    | nil =>
      rw [dyckAux_one, beq_iff_eq]
      constructor
      · intro h
        refine ⟨by rw [braceDelta_cons_bump]; simp [braceDelta]; omega, ?_⟩
        intro p q hpq hp hq
        rcases p with _ | ⟨a, p1⟩
        · exact absurd rfl hp
        · simp only [List.cons_append, List.cons.injEq] at hpq
          rcases hpq with ⟨rfl, hpq2⟩
          have h0 : p1 = [] ∧ q = [] := List.append_eq_nil.mp hpq2.symm
          exact absurd h0.2 hq
      · intro h
        have := h.1
        rw [braceDelta_cons_bump] at this
        simp [braceDelta] at this
        omega
    | cons r rs =>
      rw [dyckAux_two, Bool.and_eq_true, decide_eq_true_eq, ih (bumpDepth c d)]
      constructor
      · intro h
        rcases h with ⟨h1, h2, h3⟩
        refine ⟨by rw [braceDelta_cons_bump]; omega, ?_⟩
        intro p q hpq hp hq
        rcases p with _ | ⟨a, p1⟩
        · exact absurd rfl hp
        · simp only [List.cons_append, List.cons.injEq] at hpq
          rcases hpq with ⟨rfl, hpq2⟩
          rcases p1 with _ | ⟨b, p2⟩
          · rw [braceDelta_cons_bump]
            simp [braceDelta]
            omega
          · have := h3 (b :: p2) q hpq2 (by simp) hq
            rw [braceDelta_cons_bump]
            omega
      · intro h
        rcases h with ⟨h1, h2⟩
        have hb : 1 ≤ bumpDepth c d := by
          have := h2 [c] (r :: rs) rfl (by simp) (by simp)
          rw [braceDelta_cons_bump] at this
          simp [braceDelta] at this
          omega
        refine ⟨hb, by rw [braceDelta_cons_bump] at h1; omega, ?_⟩
        intro p q hpq hp hq
        have := h2 (c :: p) q (by simp [hpq]) (by simp) hq
        rw [braceDelta_cons_bump] at this
        omega

theorem scan_complete :
    ∀ (w post : List Char) (d : Int), 1 ≤ d → d + braceDelta w = 0 →
      PosPrefix d w → scanToClose (w ++ post) d = some w := by
  intro w
  induction w with
  | nil =>
    intro post d h1 h2 _
    simp [braceDelta] at h2
    omega
  | cons c w1 ih =>
    intro post d h1 h2 h3
    have hbal : bumpDepth c d + braceDelta w1 = 0 := by
      rw [← braceDelta_cons_bump]
      exact h2
    have hposd : w1 ≠ [] → 1 ≤ bumpDepth c d := by
      intro hne
      have := h3 [c] w1 rfl (by simp) hne
      rw [braceDelta_cons_bump] at this
      simp [braceDelta] at this
      omega
    have hpos1 : PosPrefix (bumpDepth c d) w1 := by
      intro p q hpq hp hq
      have := h3 (c :: p) q (by simp [hpq]) (by simp) hq
      rw [braceDelta_cons_bump] at this
      omega
    rw [List.cons_append, scanToClose_cons]
    by_cases hc1 : c = '{'
    · rw [if_pos hc1]
      have hb : bumpDepth c d = d + 1 := by simp [bumpDepth, hc1]
      rw [ih post (d + 1) (by omega) (by rw [← hb]; exact hbal)
        (by rw [← hb]; exact hpos1)]
      simp [hc1]
    · by_cases hc2 : c = '}'
      · rw [if_neg hc1, if_pos hc2]
        have hb : bumpDepth c d = d - 1 := by simp [bumpDepth, hc1, hc2]
        by_cases hd : d - 1 = 0
        · rw [if_pos hd]
          have hw1 : w1 = [] := by
            rcases w1 with _ | ⟨b, w2⟩
            · rfl
            · have := hposd (by simp)
              omega
          rw [hw1, hc2]
        · rw [if_neg hd]
          rw [ih post (d - 1) (by omega) (by rw [← hb]; exact hbal)
            (by rw [← hb]; exact hpos1)]
          simp
      · rw [if_neg hc1, if_neg hc2]
        have hb : bumpDepth c d = d := by simp [bumpDepth, hc1, hc2]
        rw [ih post d (by omega) (by rw [← hb]; exact hbal)
          (by rw [← hb]; exact hpos1)]
        simp

theorem scan_sound :
    ∀ (cs : List Char) (d : Int) (out : List Char), 1 ≤ d →
      scanToClose cs d = some out →
      ∃ rest, cs = out ++ rest ∧ d + braceDelta out = 0 ∧ PosPrefix d out := by
  intro cs
  induction cs with
  | nil =>
    intro d out _ h
    simp [scanToClose] at h
  | cons c cs1 ih =>
    intro d out h1 h
    rw [scanToClose_cons] at h
    have step :
        ∀ out1 : List Char, out = c :: out1 → 1 ≤ bumpDepth c d →
          bumpDepth c d + braceDelta out1 = 0 → PosPrefix (bumpDepth c d) out1 →
          (∃ rest, cs1 = out1 ++ rest) →
          ∃ rest, c :: cs1 = out ++ rest ∧ d + braceDelta out = 0 ∧ PosPrefix d out := by
      intro out1 hout hb1 hbal hpos hrest
      rcases hrest with ⟨rest, hrest⟩
      subst hout
      refine ⟨rest, by simp [hrest], by rw [braceDelta_cons_bump]; exact hbal, ?_⟩
      intro p q hpq hp hq
      rcases p with _ | ⟨a, p1⟩
      · exact absurd rfl hp
      · simp only [List.cons_append, List.cons.injEq] at hpq
        rcases hpq with ⟨rfl, hpq2⟩
        rcases p1 with _ | ⟨b, p2⟩
        · rw [braceDelta_cons_bump]
          simp [braceDelta]
          omega
        · have := hpos (b :: p2) q hpq2 (by simp) hq
          rw [braceDelta_cons_bump]
          omega
    by_cases hc1 : c = '{'
    · rw [if_pos hc1, Option.map_eq_some'] at h
      rcases h with ⟨out1, hscan, hout⟩
      have hb : bumpDepth c d = d + 1 := by simp [bumpDepth, hc1]
      rcases ih (d + 1) out1 (by omega) hscan with ⟨rest, hrest, hbal, hpos⟩
      exact step out1 hout.symm (by omega) (by rw [hb]; exact hbal)
        (by rw [hb]; exact hpos) ⟨rest, hrest⟩
    · by_cases hc2 : c = '}'
      · rw [if_neg hc1, if_pos hc2] at h
        by_cases hd : d - 1 = 0
        · rw [if_pos hd, Option.some.injEq] at h
          subst h
          refine ⟨cs1, rfl, ?_, ?_⟩
          · rw [braceDelta_cons_bump]
            simp [braceDelta, bumpDepth, hc1, hc2]
            omega
          · intro p q hpq hp hq
            rcases p with _ | ⟨a, p1⟩
            · exact absurd rfl hp
            · simp only [List.cons_append, List.cons.injEq] at hpq
              rcases hpq with ⟨rfl, hpq2⟩
              have h0 : p1 = [] ∧ q = [] := List.append_eq_nil.mp hpq2.symm
              exact absurd h0.2 hq
        · rw [if_neg hd, Option.map_eq_some'] at h
          rcases h with ⟨out1, hscan, hout⟩
          have hb : bumpDepth c d = d - 1 := by simp [bumpDepth, hc1, hc2]
          rcases ih (d - 1) out1 (by omega) hscan with ⟨rest, hrest, hbal, hpos⟩
          exact step out1 hout.symm (by omega) (by rw [hb]; exact hbal)
            (by rw [hb]; exact hpos) ⟨rest, hrest⟩
      · rw [if_neg hc1, if_neg hc2, Option.map_eq_some'] at h
        rcases h with ⟨out1, hscan, hout⟩
        have hb : bumpDepth c d = d := by simp [bumpDepth, hc1, hc2]
        rcases ih d out1 h1 hscan with ⟨rest, hrest, hbal, hpos⟩
        exact step out1 hout.symm (by omega) (by rw [hb]; exact hbal)
          (by rw [hb]; exact hpos) ⟨rest, hrest⟩

theorem dropWhile_not_brace (pre : List Char) (xs : List Char)
    (h : '{' ∉ pre) :
    (pre ++ xs).dropWhile (fun c => c ≠ '{') = xs.dropWhile (fun c => c ≠ '{') := by
  induction pre with
  | nil => rfl
  | cons c rest ih =>
    have hc : c ≠ '{' := by
      intro he
      exact h (he ▸ List.mem_cons_self c rest)
    rw [List.cons_append, List.dropWhile_cons, if_pos (decide_eq_true hc)]
    exact ih fun hm => h (List.mem_cons_of_mem c hm)

theorem dropWhile_no_brace (l : List Char) (h : '{' ∉ l) :
    l.dropWhile (fun c => c ≠ '{') = [] := by
  induction l with
  | nil => rfl
  | cons c rest ih =>
    have hc : c ≠ '{' := by
      intro he
      exact h (he ▸ List.mem_cons_self c rest)
    rw [List.dropWhile_cons, if_pos (decide_eq_true hc)]
    exact ih fun hm => h (List.mem_cons_of_mem c hm)

theorem dropWhile_mem_brace (l : List Char) (h : '{' ∈ l) :
    ∃ t, l.dropWhile (fun c => c ≠ '{') = '{' :: t := by
  induction l with
  | nil => simp at h
  | cons c rest ih =>
    by_cases hc : c = '{'
    · subst hc
      refine ⟨rest, ?_⟩
      rw [List.dropWhile_cons, if_neg]
      simp
    · have hm : '{' ∈ rest := by
        rcases List.mem_cons.mp h with h1 | h1
        · exact absurd h1.symm hc
        · exact h1
      rcases ih hm with ⟨t, ht⟩
      refine ⟨t, ?_⟩
      rw [List.dropWhile_cons, if_pos (decide_eq_true hc)]
      exact ht

/-! ### Model of the ECMAScript JSON.parse builtin

The handler feeds extractor candidates to JSON.parse.  The parser below is a
standard recursive-descent JSON reader over the character list, structural on
a fuel argument; number tokens keep their lexeme (the pipeline never inspects
parsed numeric values, so no floating-point semantics is needed). -/

/-- A parsed JSON value. -/
inductive Json where
| null
| bool (b : Bool)
| num (lexeme : String)
| str (s : String)
| arr (elems : List Json)
| obj (members : List (String × Json))

/-- JSON insignificant whitespace. -/
def jsonWsChar (c : Char) : Bool := c = ' ' || c = '\t' || c = '\n' || c = '\r'

/-- Skip JSON whitespace. -/
def skipJws (cs : List Char) : List Char := cs.dropWhile jsonWsChar

/-- Value of one hexadecimal digit. -/
def hexVal (c : Char) : Option Nat :=
  if c.isDigit then some (c.toNat - 48)
  else if 'a' ≤ c && c ≤ 'f' then some (c.toNat - 87)
  else if 'A' ≤ c && c ≤ 'F' then some (c.toNat - 55)
  else none

/-- Translate a one-character JSON escape. -/
def unescape : Char → Option Char
| '"' => some '"'
| '\\' => some '\\'
| '/' => some '/'
| 'b' => some (Char.ofNat 8)
| 'f' => some (Char.ofNat 12)
| 'n' => some '\n'
| 'r' => some '\r'
| 't' => some '\t'
| _ => none

/-- Parse a JSON string body after the opening quote (fuel-structural). -/
def parseJStr : Nat → List Char → List Char → Option (String × List Char)
| 0, _, _ => none
| fuel + 1, acc, cs =>
  match cs with
  | [] => none
  | '"' :: rest => some (String.mk acc.reverse, rest)
  | '\\' :: 'u' :: a :: b :: c :: d :: rest =>
    (match hexVal a, hexVal b, hexVal c, hexVal d with
     | some x, some y, some z, some w =>
       parseJStr fuel (Char.ofNat (((x * 16 + y) * 16 + z) * 16 + w) :: acc) rest
     | _, _, _, _ => none)
  | '\\' :: e :: rest =>
    (match unescape e with
     | some ch => parseJStr fuel (ch :: acc) rest
     | none => none)
  | c :: rest => parseJStr fuel (c :: acc) rest

/-- Parse the optional exponent tail of a JSON number. -/
def parseJExp (lex : List Char) (e : Char) (r : List Char) :
    Option (String × List Char) :=
  let sr : List Char × List Char :=
    match r with
    | '+' :: t => (['+'], t)
    | '-' :: t => (['-'], t)
    | _ => ([], r)
  let ds := sr.2.takeWhile Char.isDigit
  if ds.isEmpty then none
  else some (String.mk (lex ++ e :: sr.1 ++ ds), sr.2.drop ds.length)

/-- Parse a JSON number token, keeping its lexeme. -/
def parseJNum (cs : List Char) : Option (String × List Char) :=
  let p1 : Option (List Char × List Char) :=
    match cs with
    | '-' :: r =>
      (let d := r.takeWhile Char.isDigit
       if d.isEmpty then none else some ('-' :: d, r.drop d.length))
    | _ =>
      (let d := cs.takeWhile Char.isDigit
       if d.isEmpty then none else some (d, cs.drop d.length))
  match p1 with
  | none => none
  | some (lex1, r1) =>
    let p2 : Option (List Char × List Char) :=
      match r1 with
      | '.' :: r =>
        (let d := r.takeWhile Char.isDigit
         if d.isEmpty then none else some (lex1 ++ '.' :: d, r.drop d.length))
      | _ => some (lex1, r1)
    match p2 with
    | none => none
    | some (lex2, r2) =>
      match r2 with
      | 'e' :: r => parseJExp lex2 'e' r
      | 'E' :: r => parseJExp lex2 'E' r
      | _ => some (String.mk lex2, r2)

mutual

/-- Parse one JSON value (fuel-structural recursive descent). -/
def parseJVal : Nat → List Char → Option (Json × List Char)
| 0, _ => none
| fuel + 1, cs0 =>
  let cs := skipJws cs0
  match cs with
  | '{' :: rest =>
    (let rest2 := skipJws rest
     match rest2 with
     | '}' :: r => some (Json.obj [], r)
     | _ =>
       match parseJMembers fuel rest2 with
       | some (ms, r) => some (Json.obj ms, r)
       | none => none)
  | '[' :: rest =>
    (let rest2 := skipJws rest
     match rest2 with
     | ']' :: r => some (Json.arr [], r)
     | _ =>
       match parseJElems fuel rest2 with
       | some (es, r) => some (Json.arr es, r)
       | none => none)
  | '"' :: rest =>
    (match parseJStr (rest.length + 1) [] rest with
     | some (s, r) => some (Json.str s, r)
     | none => none)
  | 't' :: 'r' :: 'u' :: 'e' :: r => some (Json.bool true, r)
  | 'f' :: 'a' :: 'l' :: 's' :: 'e' :: r => some (Json.bool false, r)
  | 'n' :: 'u' :: 'l' :: 'l' :: r => some (Json.null, r)
  | c :: _ =>
    (if c = '-' || c.isDigit then
       match parseJNum cs with
       | some (s, r) => some (Json.num s, r)
       | none => none
     else none)
  | [] => none

/-- Parse the members of a JSON object, positioned at the first key. -/
def parseJMembers : Nat → List Char → Option (List (String × Json) × List Char)
| 0, _ => none
| fuel + 1, cs =>
  match cs with
  | '"' :: rest =>
    (match parseJStr (rest.length + 1) [] rest with
     | some (key, r1) =>
       (match skipJws r1 with
        | ':' :: r3 =>
          (match parseJVal fuel r3 with
           | some (v, r4) =>
             (match skipJws r4 with
              | ',' :: r6 =>
                (match parseJMembers fuel (skipJws r6) with
                 | some (ms, r7) => some ((key, v) :: ms, r7)
                 | none => none)
              | '}' :: r6 => some ([(key, v)], r6)
              | _ => none)
           | none => none)
        | _ => none)
     | none => none)
  | _ => none

/-- Parse the elements of a JSON array, positioned at the first element. -/
def parseJElems : Nat → List Char → Option (List Json × List Char)
| 0, _ => none
| fuel + 1, cs =>
  match parseJVal fuel cs with
  | some (v, r1) =>
    (match skipJws r1 with
     | ',' :: r3 =>
       (match parseJElems fuel r3 with
        | some (es, r4) => some (v :: es, r4)
        | none => none)
     | ']' :: r3 => some ([v], r3)
     | _ => none)
  | none => none

end

/-- Model of JSON.parse: parse one value and require only whitespace after
it; any failure is the SyntaxError JSON.parse would throw. -/
def jsonParse (s : String) : Option Json :=
  match parseJVal (s.length + 1) s.toList with
  | some (v, rest) => if (skipJws rest).isEmpty then some v else none
  | none => none

/-! ### Model of the regular-expression matchers

main.ts line 187 matches the candidate against a travel_plan key pattern
(quoted key, optional whitespace, colon, optional whitespace, a single-level
brace group).  Lines 272-274 match destination, duration and mode labels
case-insensitively, with a greedy gap class and a greedy capture class; the
gap class backtracks one character at a time when the capture would be empty,
exactly as a backtracking regex engine does. -/

/-- The gap character class of the field matchers: quote, double quote,
colon, or whitespace. -/
def classA (c : Char) : Bool := c = '\'' || c = '"' || c = ':' || c.isWhitespace

/-- The capture character class of the field matchers: anything except
comma, newline, double quote, quote, closing brace. -/
def classB (c : Char) : Bool := !(c = ',' || c = '\n' || c = '"' || c = '\'' || c = '}')

/-- Greedy capture after consuming k gap characters, backtracking on k. -/
def tryCapture : Nat → List Char → Option (List Char)
| 0, rest =>
  (let cap := rest.takeWhile classB
   if cap.isEmpty then none else some cap)
| k + 1, rest =>
  let cap := (rest.drop (k + 1)).takeWhile classB
  if cap.isEmpty then tryCapture k rest else some cap

/-- Case-insensitive literal prefix test (the i flag of the matchers). -/
def lowerStartsWith : List Char → List Char → Bool
| [], _ => true
| _ :: _, [] => false
| l :: ls, c :: cs => (c.toLower = l) && lowerStartsWith ls cs

/-- First match of pattern literal, gap class star, capture class plus:
scan start positions left to right, at each matching literal try the gap
lengths greedily, return the first successful capture group. -/
def scanPattern (lit : List Char) : List Char → Option (List Char)
| [] => none
| c :: rest =>
  if lowerStartsWith lit (c :: rest) then
    match tryCapture (((c :: rest).drop lit.length).takeWhile classA).length
        ((c :: rest).drop lit.length) with
    | some cap => some cap
    | none => scanPattern lit rest
  else scanPattern lit rest

/-- Attempt the travel_plan pattern anchored at the head of the list. -/
def matchTravelPlanAt (cs : List Char) : Option (List Char) :=
  let lit := "\"travel_plan\"".toList
  if lit.isPrefixOf cs then
    let r1 := cs.drop lit.length
    let ws1 := r1.takeWhile Char.isWhitespace
    let r2 := r1.drop ws1.length
    match r2 with
    | ':' :: r3 =>
      (let ws2 := r3.takeWhile Char.isWhitespace
       let r4 := r3.drop ws2.length
       match r4 with
       | '{' :: r5 =>
         (let body := r5.takeWhile (fun c => c ≠ '}')
          match r5.drop body.length with
          | '}' :: _ => some (lit ++ ws1 ++ ':' :: ws2 ++ '{' :: body ++ ['}'])
          | _ => none)
       | _ => none)
    | _ => none
  else none

/-- Leftmost match of the travel_plan pattern. -/
def findTravelPlanAux : List Char → Option (List Char)
| [] => none
| c :: rest =>
  match matchTravelPlanAt (c :: rest) with
  | some m => some m
  | none => findTravelPlanAux rest

/-- The jsonStr.match travel_plan call of main.ts line 187. -/
def findTravelPlan (s : String) : Option String :=
  (findTravelPlanAux s.toList).map String.mk

/-! ### Small JS string builtins used by the handler -/

/-- Model of String.prototype.toLowerCase. -/
def jsToLower (s : String) : String := String.mk (s.toList.map Char.toLower)

/-- Literal prefix test. -/
def startsWithL : List Char → List Char → Bool
| [], _ => true
| _ :: _, [] => false
| a :: as, b :: bs => (a = b) && startsWithL as bs

/-- Substring containment scan. -/
def containsL (pat : List Char) : List Char → Bool
| [] => pat.isEmpty
| c :: rest => startsWithL pat (c :: rest) || containsL pat rest

/-- Model of String.prototype.includes. -/
def jsIncludes (s pat : String) : Bool := containsL pat.toList s.toList

/-- Whitespace trim on both ends (model of String.prototype.trim). -/
def trimChars (cs : List Char) : List Char :=
  ((cs.dropWhile Char.isWhitespace).reverse.dropWhile Char.isWhitespace).reverse

/-- The .trim().replace quote-stripping cleanup of main.ts lines 276-278. -/
def cleanCapture (cs : List Char) : String :=
  String.mk ((trimChars cs).filter (fun c => !(c = '\'' || c = '"')))

/-! ### Data model: the travel request and the plan object -/

/-- The inbound TravelRequest payload, with the fields the handler reads. -/
structure TravelRequest where
  destination : String
  duration : Nat
  travelers : Nat
  budget : String
  interests : List String
  mobility : String
  food_preference : Option String

/-- A JS value that is either a string or a number, as stored in
debug_info.extracted_info.duration. -/
inductive StrOrNum where
| str (s : String)
| num (n : Nat)
deriving DecidableEq

/-- One synthesized plan record (the single element of plans). -/
structure PlanItem where
  mode_name : String
  mode_emoji : String
  daily_attractions : String
  pace : String
  daily_budget : String
  total_budget : String
  flexibility : String
  description : String
  detailed_plan : String

/-- The debug_info object, one shape per synthesis tier that builds it. -/
inductive DebugInfo where
| withResponse (response_length : Nat) (has_destination : Bool) (budget_selected : String)
| emptyResponse (response_length : Nat) (task_sent : String) (budget_selected : String)
| parseFailure (response_length : Nat) (parse_error : String)
    (extracted_destination : String) (extracted_duration : StrOrNum)
    (extracted_mode : String)
    (json_extraction_failed : Bool) (using_full_response_as_plan : Bool)

/-- A synthesized planData object. -/
structure BuiltPlan where
  plans : List PlanItem
  selected_mode : String
  full_ai_response : String
  debug_info : DebugInfo

/-- The value bound to planData: either the object JSON.parse returned
(tiers 1-2) or a synthesized plan object (tiers 3-5). -/
inductive PlanData where
| parsed (v : Json)
| built (p : BuiltPlan)

/-- The exceptions that can cross the synthesis try block: a JSON.parse
SyntaxError (identified by the string it was thrown on) or the explicit
incomplete-JSON Error of main.ts line 196. -/
inductive SynthErr where
| parseFail (input : String)
| incompleteJson
deriving DecidableEq

/-- The message of a synthesis exception, as read by parseError.message in
the catch handler.  The incomplete-JSON message is the literal from line
196; the SyntaxError message is modelled as naming the offending input. -/
def errMessage : SynthErr → String
| SynthErr.parseFail s => "JSON parse error in: " ++ s
| SynthErr.incompleteJson => "Incomplete JSON in response"

/-! ### Task composer (main.ts lines 105-116) -/

/-- The food_preference logical-or default. -/
def foodOrAny : Option String → String
| some s => if s = "" then "Any" else s
| none => "Any"

/-- The task template string sent to the agent. -/
def composeTask (req : TravelRequest) : String :=
  "Create a " ++ budgetToMode req.budget ++ " travel plan for " ++
  req.destination ++ " (" ++ natToString req.duration ++ " days, " ++
  natToString req.travelers ++ " travelers).\n\nBudget: " ++ req.budget ++
  "\nInterests: " ++ String.intercalate ", " req.interests ++
  "\nFood: " ++ foodOrAny req.food_preference ++
  "\nTransport: " ++ req.mobility ++
  "\n\nGenerate a detailed day-by-day itinerary with attractions, restaurants, timing, and costs.\n\nUse the travel_plan_generator tool to create this plan.\n\nMake sure to use the available MCP servers (Firecrawl for research, Notion for potential saving) and provide detailed, actionable travel plans."

/-! ### The synthesis tiers (main.ts lines 157-322) -/

/-- Tier 3 (lines 198-231): non-empty response without a JSON candidate;
wraps the whole response as the detailed plan. -/
def tier3Plan (req : TravelRequest) (fullResponse : String) : BuiltPlan :=
  let mode := modeFor req.budget
  { plans := [{
      mode_name := mode.name
      mode_emoji := mode.emoji
      daily_attractions := mode.attractions
      pace := mode.pace
      daily_budget := mode.daily
      total_budget := totalBudgetStr mode.daily req.duration
      flexibility := flexibilityFor req.budget
      description := "Customized " ++ jsToLower mode.name ++ " plan for your " ++
        req.budget ++ " budget and preferences."
      detailed_plan := fullResponse }]
    selected_mode := mode.name
    full_ai_response := fullResponse
    debug_info := DebugInfo.withResponse fullResponse.length
      (jsIncludes fullResponse req.destination) req.budget }

/-- Tier 4 (lines 232-265): empty response; placeholder detailed plan and
the truncated task string in debug_info. -/
def tier4Plan (req : TravelRequest) : BuiltPlan :=
  let mode := modeFor req.budget
  { plans := [{
      mode_name := mode.name
      mode_emoji := mode.emoji
      daily_attractions := mode.attractions
      pace := mode.pace
      daily_budget := mode.daily
      total_budget := totalBudgetStr mode.daily req.duration
      flexibility := flexibilityFor req.budget
      description := mode.name ++ " plan for your " ++ req.budget ++ " budget."
      detailed_plan := "Sample plan for " ++ req.destination ++ " - AI response was empty" }]
    selected_mode := mode.name
    full_ai_response := "No AI response received"
    debug_info := DebugInfo.emptyResponse 0 ((composeTask req).take 200 ++ "...") req.budget }

/-- Tier 5, the catch handler (lines 267-319): best-effort field recovery by
pattern matching, then a synthetic plan wrapping the whole response. -/
def catchAll (req : TravelRequest) (fullResponse : String) (e : SynthErr) : BuiltPlan :=
  let extractedDestination :=
    match scanPattern "destination".toList fullResponse.toList with
    | some cap => cleanCapture cap
    | none => req.destination
  let extractedDuration : StrOrNum :=
    match scanPattern "duration".toList fullResponse.toList with
    | some cap => StrOrNum.str (cleanCapture cap)
    | none => StrOrNum.num req.duration
  let extractedMode :=
    match scanPattern "mode".toList fullResponse.toList with
    | some cap => cleanCapture cap
    | none => budgetToMode req.budget
  let mode := modeFor req.budget
  { plans := [{
      mode_name := mode.name
      mode_emoji := mode.emoji
      daily_attractions := mode.attractions
      pace := mode.pace
      daily_budget := mode.daily
      total_budget := totalBudgetStr mode.daily req.duration
      flexibility := flexibilityFor req.budget
      description := "AI-generated " ++ jsToLower mode.name ++ " plan for " ++
        extractedDestination
      detailed_plan := fullResponse }]
    selected_mode := mode.name
    full_ai_response := fullResponse
    debug_info := DebugInfo.parseFailure fullResponse.length (errMessage e)
      extractedDestination extractedDuration extractedMode true true }

/-- The body of the inner try block (lines 157-266): extract a candidate,
strict parse, relaxed travel_plan parse, then the no-candidate tiers; errors
are the exceptions that reach the catch handler. -/
def tierBody (req : TravelRequest) (fullResponse : String) : Except SynthErr PlanData :=
  match extractBalanced fullResponse with
  | ExtractResult.candidate jsonStr =>
    (match jsonParse jsonStr with
     | some v => Except.ok (PlanData.parsed v)
     | none =>
       match findTravelPlan jsonStr with
       | some m =>
         (match jsonParse ("\x7b" ++ m ++ "\x7d") with
          | some v => Except.ok (PlanData.parsed v)
          | none => Except.error (SynthErr.parseFail ("\x7b" ++ m ++ "\x7d")))
       | none => Except.error (SynthErr.parseFail jsonStr))
  | ExtractResult.incomplete => Except.error SynthErr.incompleteJson
  | ExtractResult.noCandidate =>
    if fullResponse.length > 0 then Except.ok (PlanData.built (tier3Plan req fullResponse))
    else Except.ok (PlanData.built (tier4Plan req))

/-- The whole try/catch synthesis (lines 157-322): any exception from the
try body is consumed by the catch handler, which builds the tier-5 plan. -/
def synthesize (req : TravelRequest) (fullResponse : String) : PlanData :=
  match tierBody req fullResponse with
  | Except.ok pd => pd
  | Except.error e => PlanData.built (catchAll req fullResponse e)

/-- The synthesis as seen by the code surrounding the try/catch: an
exception would surface here as an error value; the catch handler contains
no throwing operation, so its result is always ok. -/
def synthesizeE (req : TravelRequest) (fullResponse : String) : Except SynthErr PlanData :=
  match tierBody req fullResponse with
  | Except.ok pd => Except.ok pd
  | Except.error e => Except.ok (PlanData.built (catchAll req fullResponse e))

/-! ### Stream consumer (main.ts lines 121-151) -/

/-- One content item of a message event (item.type and item.text). -/
structure MsgItem where
  ty : String
  text : String

/-- The content field of a text or message event: a string, an array of
items, or some other JS value. -/
inductive EvContent where
| jsStr (s : String)
| jsArr (items : List MsgItem)
| jsOther

/-- A response event as consumed by the loop: text, message, tool_use, or
any other event type. -/
inductive RespEvent where
| text (content : EvContent)
| message (content : EvContent)
| tool_use
| other

/-- The inner for-loop over message items, appending each text item. -/
def appendItems : String → List MsgItem → String
| acc, [] => acc
| acc, i :: is => appendItems (if i.ty = "text" then acc ++ i.text else acc) is

/-- The event loop building fullResponse, one event at a time. -/
def consumeAux : List RespEvent → String → String
| [], acc => acc
| e :: rest, acc =>
  match e with
  | RespEvent.text (EvContent.jsStr s) => consumeAux rest (acc ++ s)
  | RespEvent.text _ => consumeAux rest acc
  | RespEvent.message (EvContent.jsStr s) => consumeAux rest (acc ++ s)
  | RespEvent.message (EvContent.jsArr items) => consumeAux rest (appendItems acc items)
  | RespEvent.message EvContent.jsOther => consumeAux rest acc
  | RespEvent.tool_use => consumeAux rest acc
  | RespEvent.other => consumeAux rest acc

/-- The accumulated response text after draining the event sequence. -/
def consume (evs : List RespEvent) : String := consumeAux evs ""

/-- Concatenation of a list of strings in order. -/
def concatAll : List String → String
| [] => ""
| s :: rest => s ++ concatAll rest

/-- Specification-side contribution of a single event, in the words of the
stream-consumer contract: text events contribute textual content; message
events contribute their string content or the text of each text-tagged
item; tool_use and other events contribute nothing. -/
def contribution : RespEvent → String
| RespEvent.text (EvContent.jsStr s) => s
| RespEvent.message (EvContent.jsStr s) => s
| RespEvent.message (EvContent.jsArr items) =>
  concatAll (items.map fun i => if i.ty = "text" then i.text else "")
| _ => ""

/-! ### String append helper lemmas -/

theorem string_mk_append (a b : List Char) :
    String.mk a ++ String.mk b = String.mk (a ++ b) := rfl

theorem string_append_assoc (a b c : String) :
    (a ++ b) ++ c = a ++ (b ++ c) := by
  cases a
  cases b
  cases c
  rw [string_mk_append, string_mk_append, string_mk_append, string_mk_append,
    List.append_assoc]

theorem string_append_nil (a : String) : a ++ "" = a := by
  cases a
  rw [show ("" : String) = String.mk [] from rfl, string_mk_append, List.append_nil]

/-! ### Stream-consumer lemmas -/

theorem appendItems_eq (items : List MsgItem) :
    ∀ acc : String,
      appendItems acc items =
        acc ++ concatAll (items.map fun i => if i.ty = "text" then i.text else "") := by
  induction items with
  | nil =>
    intro acc
    simp [appendItems, concatAll, string_append_nil]
  | cons i is ih =>
    intro acc
    by_cases hty : i.ty = "text"
    · simp [appendItems, hty, ih, concatAll, string_append_assoc]
    · simp only [appendItems, if_neg hty, List.map_cons, concatAll, ih]
      rw [show ∀ x : String, ("" : String) ++ x = x from fun _ => rfl]

theorem consumeAux_eq (evs : List RespEvent) :
    ∀ acc : String, consumeAux evs acc = acc ++ concatAll (evs.map contribution) := by
  induction evs with
  | nil =>
    intro acc
    simp [consumeAux, concatAll, string_append_nil]
  | cons e rest ih =>
    intro acc
    cases e with
    | text c =>
      cases c with
      | jsStr s =>
        simp only [consumeAux, ih, List.map_cons, contribution, concatAll,
          string_append_assoc]
      | jsArr items =>
        simp only [consumeAux, ih, List.map_cons, contribution, concatAll]
        rfl
      | jsOther =>
        simp only [consumeAux, ih, List.map_cons, contribution, concatAll]
        rfl
    | message c =>
      cases c with
      | jsStr s =>
        simp only [consumeAux, ih, List.map_cons, contribution, concatAll,
          string_append_assoc]
      | jsArr items =>
        simp only [consumeAux, ih, List.map_cons, contribution, concatAll,
          appendItems_eq, string_append_assoc]
      | jsOther =>
        simp only [consumeAux, ih, List.map_cons, contribution, concatAll]
        rfl
    | tool_use =>
      simp only [consumeAux, ih, List.map_cons, contribution, concatAll]
      rfl
    | other =>
      simp only [consumeAux, ih, List.map_cons, contribution, concatAll]
      rfl

/-! ### Totality helpers -/

theorem synthesize_built_plans (req : TravelRequest) (text : String) (bp : BuiltPlan)
    (h : synthesize req text = PlanData.built bp) : bp.plans.length = 1 := by
  have h2 : tierBody req text = Except.ok (PlanData.built bp) ∨
      ∃ e, catchAll req text e = bp := by
    unfold synthesize at h
    cases ht : tierBody req text with
    | ok pd =>
      rw [ht] at h
      have h3 : pd = PlanData.built bp := h
      exact Or.inl (by rw [h3])
    | error e =>
      rw [ht] at h
      have h3 : PlanData.built (catchAll req text e) = PlanData.built bp := h
      injection h3 with h4
      exact Or.inr ⟨e, h4⟩
  rcases h2 with h2 | ⟨e, hc⟩
  · unfold tierBody at h2
    repeat' split at h2
    all_goals cases h2
    all_goals rfl
  · rw [← hc]
    rfl

/-! ### Claim theorems -/

/-- C1: for every finite (possibly empty) accumulated response text and every
valid TravelRequest, the fallback synthesizer produces exactly one plan
object and never propagates a failure to its caller: the try/catch
synthesis always yields ok with a single PlanData value, and whenever that
value is a synthesized plan object it carries exactly one PlanResult. -/
theorem synthesizer_totality (req : TravelRequest) (text : String) :
    ∃ pd : PlanData, synthesizeE req text = Except.ok pd ∧
      synthesize req text = pd ∧
      ∀ bp : BuiltPlan, pd = PlanData.built bp → bp.plans.length = 1 := by
  refine ⟨synthesize req text, ?_, rfl, ?_⟩
  · unfold synthesizeE synthesize
    cases tierBody req text <;> rfl
  · intro bp h
    exact synthesize_built_plans req text bp h

/-- C2: the balanced-JSON extractor returns exactly the substring from the
first opening brace to its matching closing brace for any text formed of a
well-formed balanced-brace object surrounded by arbitrary non-brace text;
on the concrete example it yields the inner object; with no opening brace
it reports no candidate; and when no prefix of the scanned tail is a
balanced object (the depth counter never returns to zero) it reports an
incomplete object. -/
theorem extractor_balanced_spec :
    (∀ pre obj post : List Char, '{' ∉ pre → '}' ∉ pre → '{' ∉ post → '}' ∉ post →
      isBalancedObj obj = true →
      extractBalanced (String.mk (pre ++ obj ++ post)) =
        ExtractResult.candidate (String.mk obj)) ∧
    extractBalanced "noise\x7b\"a\":\x7b\"b\":1\x7d\x7dtail" =
      ExtractResult.candidate "\x7b\"a\":\x7b\"b\":1\x7d\x7d" ∧
    (∀ s : String, '{' ∉ s.toList → extractBalanced s = ExtractResult.noCandidate) ∧
    (∀ s : String, '{' ∈ s.toList →
      (∀ p q : List Char, s.toList.dropWhile (fun c => c ≠ '{') = p ++ q →
        isBalancedObj p = false) →
      extractBalanced s = ExtractResult.incomplete) := by
  refine ⟨?_, by decide, ?_, ?_⟩
  · intro pre obj post h1 _ _ _ hbal
    rcases obj with _ | ⟨c, w⟩
    · simp [isBalancedObj] at hbal
    · have hc : c = '{' := by
        by_cases hc : c = '{'
        · exact hc
        · simp [isBalancedObj, hc] at hbal
      subst hc
      rw [show isBalancedObj ('{' :: w) = dyckAux ('{' :: w) 0 by simp [isBalancedObj]]
        at hbal
      rcases (dyck_iff ('{' :: w) 0).mp hbal with ⟨hbal0, hpos0⟩
      have hdrop : (pre ++ ('{' :: w) ++ post).dropWhile (fun c => c ≠ '{') =
          '{' :: (w ++ post) := by
        rw [List.append_assoc, dropWhile_not_brace pre (('{' :: w) ++ post) h1,
          List.cons_append, List.dropWhile_cons, if_neg (by simp)]
      have hscan : scanToClose ('{' :: (w ++ post)) 0 = some ('{' :: w) := by
        rw [scanToClose_cons, if_pos rfl]
        rw [scan_complete w post (0 + 1) (by omega) ?hb ?hp]
        · rfl
        case hb =>
          have := hbal0
          rw [braceDelta_cons_bump] at this
          simp [bumpDepth] at this
          omega
        case hp =>
          intro p q hpq hp hq
          have := hpos0 ('{' :: p) q (by simp [hpq]) (by simp) hq
          rw [braceDelta_cons_bump] at this
          simp [bumpDepth] at this ⊢
          omega
      show extractL (pre ++ ('{' :: w) ++ post) = ExtractResult.candidate (String.mk ('{' :: w))
      unfold extractL
      rw [hdrop]
      show (match scanToClose ('{' :: (w ++ post)) 0 with
        | some obj => ExtractResult.candidate (String.mk obj)
        | none => ExtractResult.incomplete) = ExtractResult.candidate (String.mk ('{' :: w))
      rw [hscan]
  · intro s h
    show extractL s.toList = ExtractResult.noCandidate
    unfold extractL
    rw [dropWhile_no_brace s.toList h]
    rfl
  · intro s h hno
    rcases dropWhile_mem_brace s.toList h with ⟨t, ht⟩
    show extractL s.toList = ExtractResult.incomplete
    unfold extractL
    rw [ht]
    show (match scanToClose ('{' :: t) 0 with
      | some obj => ExtractResult.candidate (String.mk obj)
      | none => ExtractResult.incomplete) = ExtractResult.incomplete
    cases hscan : scanToClose ('{' :: t) 0 with
    | none => rfl
    | some out =>
      exfalso
      rw [scanToClose_cons, if_pos rfl, Option.map_eq_some'] at hscan
      rcases hscan with ⟨out1, hs1, hout⟩
      rcases scan_sound t 1 out1 (by omega) hs1 with ⟨rest, hrest, hbal, hpos⟩
      have hobj : isBalancedObj ('{' :: out1) = true := by
        rw [show isBalancedObj ('{' :: out1) = dyckAux ('{' :: out1) 0 by
          simp [isBalancedObj]]
        refine (dyck_iff ('{' :: out1) 0).mpr ⟨?_, ?_⟩
        · rw [braceDelta_cons_bump]
          simp [bumpDepth]
          omega
        · intro p q hpq hp hq
          rcases p with _ | ⟨a, p1⟩
          · exact absurd rfl hp
          · simp only [List.cons_append, List.cons.injEq] at hpq
            rcases hpq with ⟨rfl, hpq2⟩
            rcases p1 with _ | ⟨b, p2⟩
            · rw [braceDelta_cons_bump]
              simp [bumpDepth, braceDelta]
            · have := hpos (b :: p2) q hpq2 (by simp) hq
              rw [braceDelta_cons_bump]
              simp [bumpDepth] at this ⊢
              omega
      have := hno ('{' :: out1) rest (by rw [ht, hrest]; rfl)
      rw [hobj] at this
      exact absurd this (by simp)

/-- Witness for C2: the general balanced-extraction statement applied at the
specification's example, noise and tail around a nested two-level object. -/
theorem extractor_balanced_spec_witness :
    ('{' ∉ "noise".toList ∧ '}' ∉ "noise".toList ∧ '{' ∉ "tail".toList ∧
      '}' ∉ "tail".toList ∧
      isBalancedObj "\x7b\"a\":\x7b\"b\":1\x7d\x7d".toList = true) ∧
    extractBalanced (String.mk ("noise".toList ++
        "\x7b\"a\":\x7b\"b\":1\x7d\x7d".toList ++ "tail".toList)) =
      ExtractResult.candidate (String.mk "\x7b\"a\":\x7b\"b\":1\x7d\x7d".toList) :=
  ⟨⟨by decide, by decide, by decide, by decide, by decide⟩,
    extractor_balanced_spec.1 "noise".toList "\x7b\"a\":\x7b\"b\":1\x7d\x7d".toList
      "tail".toList (by decide) (by decide) (by decide) (by decide) (by decide)⟩

/-- C7: the accumulated response text equals the concatenation, in arrival
order, of the textual contribution of every event; no event is skipped or
reordered, and tool_use and other events contribute nothing. -/
theorem stream_consumer_concat (evs : List RespEvent) :
    consume evs = concatAll (evs.map contribution) := by
  have h := consumeAux_eq evs ""
  rw [consume, h]
  rfl

/-- Reduction of the synthesis body once the extractor has produced a
candidate: the strict parse runs first, then the relaxed travel_plan
attempt. -/
theorem tierBody_candidate (req : TravelRequest) (text cand : String)
    (h : extractBalanced text = ExtractResult.candidate cand) :
    tierBody req text =
      (match jsonParse cand with
       | some v => Except.ok (PlanData.parsed v)
       | none =>
         match findTravelPlan cand with
         | some m =>
           (match jsonParse ("\x7b" ++ m ++ "\x7d") with
            | some v => Except.ok (PlanData.parsed v)
            | none => Except.error (SynthErr.parseFail ("\x7b" ++ m ++ "\x7d")))
         | none => Except.error (SynthErr.parseFail cand)) := by
  unfold tierBody
  rw [h]

/-- Off the inherited Object.prototype names, the full property-read model
of the modeDetails lookup coincides with the defaulting if-chain used by
the synthesis tiers. -/
theorem modeOrDefault_agrees (b : String) (h : b ∉ objectProtoKeys) :
    modeOrDefault b = JsLookup.profile (modeFor b) := by
  unfold modeOrDefault modeDetailsGet modeFor
  by_cases h1 : b = "budget"
  · simp [h1]
  · by_cases h2 : b = "moderate"
    · simp [h1, h2]
    · by_cases h3 : b = "luxury"
      · simp [h1, h2, h3]
      · simp [h1, h2, h3, h]

/-- Off the inherited Object.prototype names, the full property-read model
of the budgetToMode lookup coincides with the defaulting if-chain. -/
theorem budgetToModeLookup_agrees (b : String) (h : b ∉ objectProtoKeys) :
    budgetToModeLookup b = StrLookup.strVal (budgetToMode b) := by
  unfold budgetToModeLookup budgetToMode
  by_cases h1 : b = "budget"
  · simp [h1]
  · by_cases h2 : b = "moderate"
    · simp [h1, h2]
    · by_cases h3 : b = "luxury"
      · simp [h1, h2, h3]
      · simp [h1, h2, h3, h]

/-- C3 counterexample, two independent failures of the claim.  First, the
flexibility label: the separate flexibility ternary resolves any tier other
than budget and moderate to Low, so the unrecognized tier bogus selects the
moderate table row yet gets flexibility Low where the moderate tier gets
Medium.  Second, totality of the moderate default: the property read
traverses the prototype chain, so at the unrecognized tier toString the
lookup yields the inherited truthy Object.prototype member, the moderate
fallback never triggers and no profile is returned at all (the subsequent
daily-band access fails). -/
theorem mode_table_flexibility_counterexample :
    modeFor "bogus" = modeFor "moderate" ∧
    flexibilityFor "bogus" = "Low" ∧
    flexibilityFor "moderate" = "Medium" ∧
    (tier4Plan ⟨"X", 1, 1, "bogus", [], "walking", none⟩).plans.map PlanItem.flexibility = ["Low"] ∧
    (tier4Plan ⟨"X", 1, 1, "moderate", [], "walking", none⟩).plans.map PlanItem.flexibility = ["Medium"] ∧
    modeDetailsGet "toString" = JsLookup.inheritedFn ∧
    modeOrDefault "toString" = JsLookup.inheritedFn ∧
    JsLookup.inheritedFn ≠ JsLookup.profile (modeFor "moderate") := by
  refine ⟨by decide, by decide, by decide, by decide, by decide, by decide, by decide,
    by decide⟩

/-- C3 amended: for the three recognized enumeration values the lookup is
total with exactly one distinct profile each.  An unrecognized or absent
tier value defaults to the moderate table row only when it is not an
inherited Object.prototype member name, and even then with flexibility
label Low rather than the moderate Medium; a tier value naming an
inherited Object.prototype member (such as toString) makes the property
read return the inherited truthy member, so the moderate fallback never
triggers and the lookup returns no profile at all. -/
theorem mode_table_default_amended :
    (∀ b : String, b ∉ objectProtoKeys →
      modeOrDefault b = JsLookup.profile (modeFor b)) ∧
    (∀ b : String, b ≠ "budget" → b ≠ "moderate" → b ≠ "luxury" →
      b ∉ objectProtoKeys →
      modeOrDefault b = JsLookup.profile (modeFor "moderate") ∧
      modeFor b = modeFor "moderate" ∧ flexibilityFor b = "Low") ∧
    (∀ b ∈ objectProtoKeys, modeOrDefault b = JsLookup.inheritedFn) ∧
    modeFor "budget" ≠ modeFor "moderate" ∧
    modeFor "moderate" ≠ modeFor "luxury" ∧
    modeFor "budget" ≠ modeFor "luxury" ∧
    flexibilityFor "budget" = "High" ∧
    flexibilityFor "moderate" = "Medium" ∧
    flexibilityFor "luxury" = "Low" := by
  refine ⟨fun b h => modeOrDefault_agrees b h, ?_, by decide, by decide, by decide,
    by decide, by decide, by decide, by decide⟩
  intro b h1 h2 h3 h4
  have hm : modeFor b = modeFor "moderate" := by
    unfold modeFor
    rw [if_neg h1, if_neg h2, if_neg h3]
    rfl
  refine ⟨?_, hm, ?_⟩
  · rw [modeOrDefault_agrees b h4, hm]
  · unfold flexibilityFor
    rw [if_neg h1, if_neg h2]

/-- Witness for the amended C3 theorem at the unrecognized, non-prototype
tier bogus. -/
theorem mode_table_default_amended_witness :
    modeOrDefault "bogus" = JsLookup.profile (modeFor "moderate") ∧
    modeFor "bogus" = modeFor "moderate" ∧ flexibilityFor "bogus" = "Low" :=
  mode_table_default_amended.2.1 "bogus" (by decide) (by decide) (by decide) (by decide)

/-- C4: strategies run in order with the first success winning: whenever the
extractor yields a candidate that strict-parses, the strict parse alone
determines the resulting PlanData (even if a travel_plan pattern is also
present in the text, no later strategy runs). -/
theorem tier_ordering_strict_first (req : TravelRequest) (text cand : String) (v : Json)
    (h1 : extractBalanced text = ExtractResult.candidate cand)
    (h2 : jsonParse cand = some v) :
    synthesize req text = PlanData.parsed v := by
  unfold synthesize
  rw [tierBody_candidate req text cand h1, h2]

/-- Witness for C4: a candidate that both strict-parses and contains a
travel_plan pattern; tier 1 determines the result. -/
theorem tier_ordering_strict_first_witness :
    extractBalanced "\x7b\"travel_plan\": \x7b\"a\": 1\x7d\x7d" =
      ExtractResult.candidate "\x7b\"travel_plan\": \x7b\"a\": 1\x7d\x7d" ∧
    jsonParse "\x7b\"travel_plan\": \x7b\"a\": 1\x7d\x7d" =
      some (Json.obj [("travel_plan", Json.obj [("a", Json.num "1")])]) ∧
    (findTravelPlan "\x7b\"travel_plan\": \x7b\"a\": 1\x7d\x7d").isSome = true ∧
    synthesize ⟨"Tokyo", 3, 2, "luxury", [], "walking", none⟩
        "\x7b\"travel_plan\": \x7b\"a\": 1\x7d\x7d" =
      PlanData.parsed (Json.obj [("travel_plan", Json.obj [("a", Json.num "1")])]) :=
  ⟨rfl, rfl, rfl,
    tier_ordering_strict_first ⟨"Tokyo", 3, 2, "luxury", [], "walking", none⟩
      "\x7b\"travel_plan\": \x7b\"a\": 1\x7d\x7d"
      "\x7b\"travel_plan\": \x7b\"a\": 1\x7d\x7d"
      (Json.obj [("travel_plan", Json.obj [("a", Json.num "1")])]) rfl rfl⟩

/-- C5 counterexample: the claim says a tier-2 failure always re-raises the
original strict-parse failure, but when the travel_plan pattern matches and
the wrapped sub-object itself fails to parse, the exception that propagates
is the parse failure of the simplified wrapped string, not the original
candidate's: here the candidate strict-parse fails, the pattern matches,
and the propagated failure names the simplified string, which differs from
the candidate. -/
theorem relaxed_parse_error_counterexample :
    extractBalanced "\x7b\"travel_plan\": \x7boops\x7d, \"a\": b\x7d" =
      ExtractResult.candidate "\x7b\"travel_plan\": \x7boops\x7d, \"a\": b\x7d" ∧
    jsonParse "\x7b\"travel_plan\": \x7boops\x7d, \"a\": b\x7d" = none ∧
    findTravelPlan "\x7b\"travel_plan\": \x7boops\x7d, \"a\": b\x7d" =
      some "\"travel_plan\": \x7boops\x7d" ∧
    tierBody ⟨"Tokyo", 3, 2, "luxury", [], "walking", none⟩
        "\x7b\"travel_plan\": \x7boops\x7d, \"a\": b\x7d" =
      Except.error (SynthErr.parseFail "\x7b\"travel_plan\": \x7boops\x7d\x7d") ∧
    SynthErr.parseFail "\x7b\"travel_plan\": \x7boops\x7d\x7d" ≠
      SynthErr.parseFail "\x7b\"travel_plan\": \x7boops\x7d, \"a\": b\x7d" :=
  ⟨rfl, rfl, rfl, rfl, by decide⟩

/-- C5 amended: after a strict-parse failure, if the relaxed travel_plan
search finds no match then the original strict-parse failure propagates;
if it finds a match whose wrapped form also fails to parse, the failure
introduced by the relaxed attempt propagates instead. -/
theorem relaxed_parse_error_amended (req : TravelRequest) (text cand : String)
    (h1 : extractBalanced text = ExtractResult.candidate cand)
    (h2 : jsonParse cand = none) :
    (findTravelPlan cand = none →
      tierBody req text = Except.error (SynthErr.parseFail cand)) ∧
    (∀ m : String, findTravelPlan cand = some m →
      jsonParse ("\x7b" ++ m ++ "\x7d") = none →
      tierBody req text = Except.error (SynthErr.parseFail ("\x7b" ++ m ++ "\x7d"))) := by
  constructor
  · intro h3
    rw [tierBody_candidate req text cand h1, h2, h3]
  · intro m h3 h4
    rw [tierBody_candidate req text cand h1, h2, h3]
    show (match jsonParse ("\x7b" ++ m ++ "\x7d") with
      | some v => Except.ok (PlanData.parsed v)
      | none => Except.error (SynthErr.parseFail ("\x7b" ++ m ++ "\x7d"))) =
      Except.error (SynthErr.parseFail ("\x7b" ++ m ++ "\x7d"))
    rw [h4]

/-- Witness for the amended C5 theorem: a candidate with no travel_plan
pattern re-raises the original strict-parse failure. -/
theorem relaxed_parse_error_amended_witness :
    extractBalanced "\x7bbad\x7d" = ExtractResult.candidate "\x7bbad\x7d" ∧
    jsonParse "\x7bbad\x7d" = none ∧
    findTravelPlan "\x7bbad\x7d" = none ∧
    tierBody ⟨"Tokyo", 3, 2, "luxury", [], "walking", none⟩ "\x7bbad\x7d" =
      Except.error (SynthErr.parseFail "\x7bbad\x7d") :=
  ⟨rfl, rfl, rfl,
    (relaxed_parse_error_amended ⟨"Tokyo", 3, 2, "luxury", [], "walking", none⟩
      "\x7bbad\x7d" "\x7bbad\x7d" rfl rfl).1 rfl⟩

/-- C6: the budget calculator on a band of two decimal numerals and a
positive duration multiplies each bound exactly and formats the result as a
dollar range. -/
theorem budget_calculator_exact (lo hi d : Nat) (_h : 0 < d) :
    totalBudgetStr ("$" ++ natToString lo ++ "-" ++ natToString hi) d =
      "$" ++ natToString (lo * d) ++ "-" ++ natToString (hi * d) := by
  have hdlo := natToDigitsAux_digits (lo + 1) lo (by omega)
  have hdhi := natToDigitsAux_digits (hi + 1) hi (by omega)
  have hnelo := natToDigitsAux_ne_nil (lo + 1) lo (by omega)
  have hnehi := natToDigitsAux_ne_nil (hi + 1) hi (by omega)
  have hvlo := natToDigitsAux_val (lo + 1) lo (by omega)
  have hvhi := natToDigitsAux_val (hi + 1) hi (by omega)
  have hdata : ("$" ++ natToString lo ++ "-" ++ natToString hi).toList =
      '$' :: (natToDigitsAux (lo + 1) lo ++ '-' :: natToDigitsAux (hi + 1) hi) := by
    show ("$" ++ natToString lo ++ "-" ++ natToString hi).data = _
    rw [string_data_append, string_data_append, string_data_append]
    show ['$'] ++ natToDigitsAux (lo + 1) lo ++ ['-'] ++ natToDigitsAux (hi + 1) hi = _
    simp
  unfold totalBudgetStr
  rw [hdata]
  rw [show removeFirst '$'
      ('$' :: (natToDigitsAux (lo + 1) lo ++ '-' :: natToDigitsAux (hi + 1) hi)) =
      natToDigitsAux (lo + 1) lo ++ '-' :: natToDigitsAux (hi + 1) hi by
    simp [removeFirst]]
  rw [splitOnDash_append _ _ fun c hc => digit_ne_dash c (hdlo c hc)]
  rw [splitOnDash_no_dash _ fun c hc => digit_ne_dash c (hdhi c hc)]
  unfold budgetFromParts
  rw [show ([natToDigitsAux (lo + 1) lo, natToDigitsAux (hi + 1) hi].getD 0 []) =
      natToDigitsAux (lo + 1) lo from rfl]
  rw [show ([natToDigitsAux (lo + 1) lo, natToDigitsAux (hi + 1) hi].getD 1 []) =
      natToDigitsAux (hi + 1) hi from rfl]
  rw [jsParseIntL_digits _ hnelo hdlo, jsParseIntL_digits _ hnehi hdhi, hvlo, hvhi]
  rfl

/-- Witness for C6 at the specification's example: band 120-180 over five
days yields the 600-900 dollar range. -/
theorem budget_calculator_exact_witness :
    0 < 5 ∧ totalBudgetStr "$120-180" 5 = "$600-900" := by
  refine ⟨by decide, ?_⟩
  have h := budget_calculator_exact 120 180 5 (by decide)
  have h2 : ("$" ++ natToString 120 ++ "-" ++ natToString 180) = "$120-180" := by decide
  rw [h2] at h
  rw [h]
  decide

/-- The TravelRequest of the empty-input scenario: Tokyo, three days, luxury
tier, other fields arbitrary. -/
def c8req (travelers : Nat) (interests : List String) (mobility : String)
    (food : Option String) : TravelRequest :=
  ⟨"Tokyo", 3, travelers, "luxury", interests, mobility, food⟩

/-- C8: a Tokyo, three-day, luxury request with an empty event sequence
yields the tier-4 plan: mode name Intense Adventure, total budget 540-750
dollars, the fixed placeholder detailed plan noting the empty response, and
debug info carrying the truncated composed task string. -/
theorem empty_input_scenario (travelers : Nat) (interests : List String)
    (mobility : String) (food : Option String) :
    synthesize (c8req travelers interests mobility food) (consume []) =
      PlanData.built (tier4Plan (c8req travelers interests mobility food)) ∧
    (tier4Plan (c8req travelers interests mobility food)).plans.map PlanItem.mode_name =
      ["Intense Adventure"] ∧
    (tier4Plan (c8req travelers interests mobility food)).plans.map PlanItem.total_budget =
      ["$540-750"] ∧
    (tier4Plan (c8req travelers interests mobility food)).plans.map PlanItem.detailed_plan =
      ["Sample plan for Tokyo - AI response was empty"] ∧
    (tier4Plan (c8req travelers interests mobility food)).debug_info =
      DebugInfo.emptyResponse 0
        ((composeTask (c8req travelers interests mobility food)).take 200 ++ "...")
        "luxury" := by
  refine ⟨rfl, rfl, ?_, ?_, rfl⟩
  · have hgen : (tier4Plan (c8req travelers interests mobility food)).plans.map
        PlanItem.total_budget = [totalBudgetStr (modeFor "luxury").daily 3] := rfl
    rw [hgen, show (modeFor "luxury").daily = "$180-250" from rfl]
    decide
  · have hgen : (tier4Plan (c8req travelers interests mobility food)).plans.map
        PlanItem.detailed_plan =
        ["Sample plan for " ++ "Tokyo" ++ " - AI response was empty"] := rfl
    rw [hgen]
    decide

/-- C9: whenever the extractor reports an incomplete object, synthesis still
completes through the catch-all tier: no error shape reaches the caller,
the debug info records the Incomplete JSON in response message as the parse
failure, and the detailed plan is the entire accumulated text. -/
theorem incomplete_json_catch_all (req : TravelRequest) (text : String)
    (h : extractBalanced text = ExtractResult.incomplete) :
    synthesizeE req text =
      Except.ok (PlanData.built (catchAll req text SynthErr.incompleteJson)) ∧
    (catchAll req text SynthErr.incompleteJson).plans.map PlanItem.detailed_plan = [text] ∧
    ∃ ed : String, ∃ edur : StrOrNum, ∃ em : String,
      (catchAll req text SynthErr.incompleteJson).debug_info =
        DebugInfo.parseFailure text.length "Incomplete JSON in response"
          ed edur em true true := by
  refine ⟨?_, rfl, ⟨_, _, _, rfl⟩⟩
  unfold synthesizeE tierBody
  rw [h]

/-- Witness for C9 on a concrete never-closing brace text. -/
theorem incomplete_json_catch_all_witness :
    extractBalanced "\x7babc" = ExtractResult.incomplete ∧
    (synthesizeE ⟨"Rome", 4, 1, "budget", [], "car", none⟩ "\x7babc" =
      Except.ok (PlanData.built (catchAll ⟨"Rome", 4, 1, "budget", [], "car", none⟩
        "\x7babc" SynthErr.incompleteJson)) ∧
    (catchAll ⟨"Rome", 4, 1, "budget", [], "car", none⟩ "\x7babc"
        SynthErr.incompleteJson).plans.map PlanItem.detailed_plan = ["\x7babc"] ∧
    ∃ ed : String, ∃ edur : StrOrNum, ∃ em : String,
      (catchAll ⟨"Rome", 4, 1, "budget", [], "car", none⟩ "\x7babc"
          SynthErr.incompleteJson).debug_info =
        DebugInfo.parseFailure ("\x7babc" : String).length "Incomplete JSON in response"
          ed edur em true true) :=
  ⟨by decide,
    incomplete_json_catch_all ⟨"Rome", 4, 1, "budget", [], "car", none⟩ "\x7babc" (by decide)⟩

/-- C10: in the catch-all tier, the pattern-recovered destination, duration
and mode values do not influence the plan's budget-derived fields: any two
catch-all runs over requests agreeing on budget tier and duration, with any
accumulated texts and any parse failures, agree on mode name, daily budget,
total budget, pace, attractions and flexibility; in particular a recovered
duration never changes the total budget. -/
theorem catch_all_frame_property (r1 r2 : TravelRequest) (t1 t2 : String)
    (e1 e2 : SynthErr) (hb : r1.budget = r2.budget) (hd : r1.duration = r2.duration) :
    (catchAll r1 t1 e1).plans.map PlanItem.mode_name =
      (catchAll r2 t2 e2).plans.map PlanItem.mode_name ∧
    (catchAll r1 t1 e1).plans.map PlanItem.daily_budget =
      (catchAll r2 t2 e2).plans.map PlanItem.daily_budget ∧
    (catchAll r1 t1 e1).plans.map PlanItem.total_budget =
      (catchAll r2 t2 e2).plans.map PlanItem.total_budget ∧
    (catchAll r1 t1 e1).plans.map PlanItem.pace =
      (catchAll r2 t2 e2).plans.map PlanItem.pace ∧
    (catchAll r1 t1 e1).plans.map PlanItem.daily_attractions =
      (catchAll r2 t2 e2).plans.map PlanItem.daily_attractions ∧
    (catchAll r1 t1 e1).plans.map PlanItem.flexibility =
      (catchAll r2 t2 e2).plans.map PlanItem.flexibility := by
  refine ⟨?_, ?_, ?_, ?_, ?_, ?_⟩ <;> simp [catchAll, hb, hd]

/-- Witness for C10: two different requests sharing tier and duration, one
text carrying a recovered duration pattern and one empty, agree on all six
budget-derived fields. -/
theorem catch_all_frame_property_witness :
    (⟨"Tokyo", 5, 2, "luxury", [], "walking", none⟩ : TravelRequest).budget =
      (⟨"Paris", 5, 1, "luxury", ["art"], "car", some "vegan"⟩ : TravelRequest).budget ∧
    (⟨"Tokyo", 5, 2, "luxury", [], "walking", none⟩ : TravelRequest).duration =
      (⟨"Paris", 5, 1, "luxury", ["art"], "car", some "vegan"⟩ : TravelRequest).duration ∧
    (catchAll ⟨"Tokyo", 5, 2, "luxury", [], "walking", none⟩
        "duration: 99, destination: Mars" SynthErr.incompleteJson).plans.map
        PlanItem.total_budget =
      (catchAll ⟨"Paris", 5, 1, "luxury", ["art"], "car", some "vegan"⟩ ""
        (SynthErr.parseFail "x")).plans.map PlanItem.total_budget :=
  ⟨rfl, rfl,
    (catch_all_frame_property ⟨"Tokyo", 5, 2, "luxury", [], "walking", none⟩
      ⟨"Paris", 5, 1, "luxury", ["art"], "car", some "vegan"⟩
      "duration: 99, destination: Mars" "" SynthErr.incompleteJson
      (SynthErr.parseFail "x") rfl rfl).2.2.1⟩

end TravelAgent
